import Mathlib

/-!
Verification of the RSS-Page feed aggregation pipeline.

The data model (`FeedEntry`, `Recommendation`, `Source`, `Group`, `FeedData`,
`RecommendationsData`) is embedded from `src/types.ts`.  The pipeline
operations (URL alias expansion, normalization, recency filter, aggregation,
recommendation loading) live in `scripts/fetch_rss.py`, which is not part of
the staged sources; they are modelled from the specification, as marked on
each definition.  Timestamps are modelled at day granularity as natural
numbers; the textual date representation is abstracted as a pair of functions
(a renderer and a parser), with a concrete invertible instance
(`unaryRender` / `unaryParse`) used to evaluate closed statements.
-/

namespace RSSPage

/-- `FeedEntry` from `src/types.ts`: `title` and `link` are required strings,
`pubDate` and `description` are optional strings. -/
structure FeedEntry where
  title : String
  link : String
  pubDate : Option String
  description : Option String
deriving DecidableEq

/-- `Recommendation` from `src/types.ts`. -/
structure Recommendation where
  title : String
  url : String
  description : Option String
deriving DecidableEq

/-- `Source` from `src/types.ts`: a named feed with its URL and the entries
produced for it in the current run. -/
structure Source where
  name : String
  url : String
  entries : List FeedEntry
deriving DecidableEq

/-- `Group` from `src/types.ts`: a named ordered collection of sources. -/
structure Group where
  groupName : String
  sources : List Source
deriving DecidableEq

/-- `FeedData` from `src/types.ts`: the root aggregate written by the
pipeline. -/
structure FeedData where
  lastUpdated : String
  daysFilter : Nat
  groups : List Group
deriving DecidableEq

/-- `RecommendationsData` from `src/types.ts`: a mapping from category name to
recommendations, embedded as an association list. -/
structure RecommendationsData where
  recommendations : List (String × List Recommendation)
deriving DecidableEq

/-- Modelled from the spec (§4.3): a raw entry as delivered by feed parsing,
before normalization; every field may be missing. -/
structure RawEntry where
  title : Option String
  link : Option String
  pubDate : Option String
  description : Option String
deriving DecidableEq

/-- Modelled from the spec (§2, §4.1): a configured source, a name plus a URL
that may be a direct URL or an alias. -/
structure SourceConfig where
  name : String
  url : String
deriving DecidableEq

/-- Modelled from the spec (§2): a configured group of sources. -/
structure GroupConfig where
  groupName : String
  feeds : List SourceConfig
deriving DecidableEq

/-- Modelled from the spec (§4.2, §4.3, §7): the per-source outcome of
fetching and parsing one feed: a fetch failure, a parse failure, or the raw
entries. -/
inductive FetchResult where
  | fetchFailed (cause : String)
  | parseFailed (cause : String)
  | ok (raws : List RawEntry)
deriving DecidableEq

/-- Modelled from the spec (§7): a run-level configuration error. -/
inductive ConfigError where
  | unreadable (message : String)
deriving DecidableEq

/-- Whether a per-source outcome is one of the two failure cases. -/
def FetchResult.isFailure : FetchResult → Bool
  | .fetchFailed _ => true
  | .parseFailed _ => true
  | .ok _ => false

/-- Python-style check that `s` starts with the string `p`. -/
def strStartsWith (s p : String) : Bool :=
  s.data.take p.data.length == p.data

/-- Modelled from the spec (§4.1): the custom alias scheme marker. -/
def ALIAS_SCHEME : String := "rsshub://"

/-- Modelled from the spec (§4.1): the configured base address of the external
feed-gateway service that aliases expand to. -/
def RSSHUB_BASE : String := "https://rsshub.app"

/-- Modelled from the spec (§4.1): alias expansion.  An alias
`rsshub://namespace/path` becomes the configured base address followed by the
namespace/path unchanged; any other URL passes through unchanged. -/
def expandUrl (url : String) : String :=
  if strStartsWith url ALIAS_SCHEME then
    RSSHUB_BASE ++ "/" ++ url.drop ALIAS_SCHEME.length
  else
    url

/-- Modelled from the spec (§4.3): normalization of one raw entry.  Missing
title or link become the empty string; the publish date is parsed with
`parseRaw` (covering the standard feed date formats) and re-rendered with
`render` into the single consistent representation, and an absent or
unparseable date becomes an absent `pubDate`. -/
def normalizeEntry (parseRaw : String → Option Nat) (render : Nat → String)
    (raw : RawEntry) : FeedEntry :=
  { title := raw.title.getD ("")
    link := raw.link.getD ("")
    pubDate := (raw.pubDate.bind parseRaw).map render
    description := raw.description }

/-- Modelled from the spec (§4.3): normalization of an ordered sequence of raw
entries, preserving order and count. -/
def normalizeFeed (parseRaw : String → Option Nat) (render : Nat → String)
    (raws : List RawEntry) : List FeedEntry :=
  raws.map (normalizeEntry parseRaw render)

/-- Modelled from the spec (§4.4): the keep predicate of the recency filter.
An entry with an absent publish date is always kept; a dated entry is kept
when its date (as read back by `dateOf`) is on or after the cutoff.  A date
the parser cannot read is treated like an absent date (the spec's policy errs
toward inclusion). -/
def keepEntry (dateOf : String → Option Nat) (cutOff : Nat) (e : FeedEntry) : Bool :=
  match e.pubDate with
  | none => true
  | some s =>
    match dateOf s with
    | none => true
    | some d => decide (cutOff ≤ d)

/-- Modelled from the spec (§4.4): the recency filter over an ordered sequence
of entries, with cutoff `now - daysFilter` days. -/
def filterRecent (dateOf : String → Option Nat) (now daysFilter : Nat)
    (entries : List FeedEntry) : List FeedEntry :=
  entries.filter (keepEntry dateOf (now - daysFilter))

/-- Modelled from the spec (§4.5): processing of one configured source: expand
the URL, fetch and parse; on success normalize and filter the entries, on
either failure record the source with an empty entry list. -/
def processSource (parseRaw : String → Option Nat) (render : Nat → String)
    (dateOf : String → Option Nat) (fetchParse : String → FetchResult)
    (now daysFilter : Nat) (cfg : SourceConfig) : Source :=
  match fetchParse (expandUrl cfg.url) with
  | .ok raws =>
    { name := cfg.name
      url := expandUrl cfg.url
      entries := filterRecent dateOf now daysFilter (normalizeFeed parseRaw render raws) }
  | .fetchFailed _ =>
    { name := cfg.name, url := expandUrl cfg.url, entries := [] }
  | .parseFailed _ =>
    { name := cfg.name, url := expandUrl cfg.url, entries := [] }

/-- Modelled from the spec (§4.5): the aggregator.  Every configured group and
source is processed in registry order, and the single output `FeedData` stamps
the aggregation start time `now` (rendered) and echoes `daysFilter`. -/
def aggregate (parseRaw : String → Option Nat) (render : Nat → String)
    (dateOf : String → Option Nat) (fetchParse : String → FetchResult)
    (registry : List GroupConfig) (now daysFilter : Nat) : FeedData :=
  { lastUpdated := render now
    daysFilter := daysFilter
    groups := registry.map fun gc =>
      { groupName := gc.groupName
        sources := gc.feeds.map (processSource parseRaw render dateOf fetchParse now daysFilter) } }

/-- Modelled from the spec (§4.6): the recommendation loader.  `file` is the
content of the recommendations file when it exists; an absent file yields an
empty mapping without error, a present file is handed to the structural
parser. -/
def loadRecommendations (parseRecs : String → Except ConfigError RecommendationsData)
    (file : Option String) : Except ConfigError RecommendationsData :=
  match file with
  | none => .ok { recommendations := [] }
  | some content => parseRecs content

/-- A concrete date renderer used to evaluate closed statements: day `t` is
rendered in unary. -/
def unaryRender (t : Nat) : String := String.mk (List.replicate t 'x')

/-- A concrete date parser inverting `unaryRender`. -/
def unaryParse (s : String) : Option Nat :=
  if s.data.all (fun c => c == 'x') then some s.data.length else none

/-- A one-group, one-source registry used to evaluate closed statements. -/
def wRegistry : List GroupConfig :=
  [{ groupName := "news", feeds := [{ name := "s1", url := "rsshub://ns/path" }] }]

/-- A fetch stub used to evaluate closed statements: every URL yields one raw
entry dated day 2 in unary. -/
def wFetch : String → FetchResult :=
  fun _ => .ok [{ title := some ("t"), link := some ("l"),
                  pubDate := some ("xx"), description := none }]

theorem unaryParse_unaryRender (t : Nat) : unaryParse (unaryRender t) = some t := by
  simp [unaryParse, unaryRender]

theorem keepEntry_eq_true (dateOf : String → Option Nat) (c : Nat) (e : FeedEntry) :
    keepEntry dateOf c e = true ↔
      e.pubDate = none ∨ ∃ s, e.pubDate = some s ∧
        (dateOf s = none ∨ ∃ d, dateOf s = some d ∧ c ≤ d) := by
  rcases hp : e.pubDate with _ | s
  · simp [keepEntry, hp]
  · rcases hd : dateOf s with _ | d <;> simp [keepEntry, hp, hd]

theorem forall₂_map_of_forall {α β : Type} (P : α → β → Prop) (f : α → β)
    (l : List α) (h : ∀ a ∈ l, P a (f a)) : List.Forall₂ P l (l.map f) := by
  induction l with
  | nil => exact List.Forall₂.nil
  | cons a l ih =>
    exact List.Forall₂.cons (h a (List.mem_cons_self a l))
      (ih fun b hb => h b (List.mem_cons_of_mem a hb))

/-- C3: for every ordered entry sequence and cutoff data, the recency filter's
output is a sublist of its input — entries are removed, never reordered. -/
theorem filterRecent_sublist (dateOf : String → Option Nat) (now daysFilter : Nat)
    (entries : List FeedEntry) :
    List.Sublist (filterRecent dateOf now daysFilter entries) entries :=
  List.filter_sublist entries

/-- C5: the aggregator's single output `FeedData` carries `lastUpdated` equal
to the rendered aggregation start time and `daysFilter` echoed from input. -/
theorem aggregate_stamps (parseRaw : String → Option Nat) (render : Nat → String)
    (dateOf : String → Option Nat) (fetchParse : String → FetchResult)
    (registry : List GroupConfig) (now daysFilter : Nat) :
    (aggregate parseRaw render dateOf fetchParse registry now daysFilter).lastUpdated
        = render now ∧
    (aggregate parseRaw render dateOf fetchParse registry now daysFilter).daysFilter
        = daysFilter :=
  ⟨rfl, rfl⟩

/-- C6: when the recommendations file is absent the loader returns the empty
category mapping, and does not return an error, whatever the structural parser
does on present files. -/
theorem loadRecommendations_absent
    (parseRecs : String → Except ConfigError RecommendationsData) :
    loadRecommendations parseRecs none = .ok { recommendations := [] } :=
  rfl

/-- C7: the normalizer is total over entry field content: a present but
unparseable publish date yields an absent `pubDate` instead of a failure, an
absent date stays absent, and a missing title or link is tolerated by emitting
the empty string — no input reaches a failure branch. -/
theorem normalizeEntry_total (parseRaw : String → Option Nat) (render : Nat → String)
    (raw : RawEntry) :
    (∀ s, raw.pubDate = some s → parseRaw s = none →
      (normalizeEntry parseRaw render raw).pubDate = none) ∧
    (raw.pubDate = none → (normalizeEntry parseRaw render raw).pubDate = none) ∧
    (raw.title = none → (normalizeEntry parseRaw render raw).title = "") ∧
    (raw.link = none → (normalizeEntry parseRaw render raw).link = "") := by
  refine ⟨fun s hs hp => ?_, fun hp => ?_, fun ht => ?_, fun hl => ?_⟩
  · simp [normalizeEntry, hs, hp]
  · simp [normalizeEntry, hp]
  · simp [normalizeEntry, ht]
  · simp [normalizeEntry, hl]

/-- C10: the normalizer never drops an entry (output length equals input
length), and an entry whose source feed omits the link is kept with the empty
string as its required `link` — the type-level resolution of link-less
entries. -/
theorem link_required_kept (parseRaw : String → Option Nat) (render : Nat → String)
    (raws : List RawEntry) (raw : RawEntry) :
    (normalizeFeed parseRaw render raws).length = raws.length ∧
    (raw.link = none → (normalizeEntry parseRaw render raw).link = "") := by
  refine ⟨?_, fun hl => ?_⟩
  · simp [normalizeFeed]
  · simp [normalizeEntry, hl]

/-- C9: the recency filter is deterministic: two runs on the same entry
sequence with the same `now` and `daysFilter` produce the same output, and the
output touches no entries beyond those of the input. -/
theorem filterRecent_deterministic (dateOf : String → Option Nat)
    (now daysFilter : Nat) (es out₁ out₂ : List FeedEntry)
    (h₁ : out₁ = filterRecent dateOf now daysFilter es)
    (h₂ : out₂ = filterRecent dateOf now daysFilter es) :
    out₁ = out₂ ∧ ∀ e ∈ out₁, e ∈ es := by
  subst h₁; subst h₂
  exact ⟨rfl, fun e he => (List.filter_sublist es).subset he⟩

/-- C9 witness: the determinism theorem evaluated on a concrete run. -/
theorem filterRecent_deterministic_witness :
    filterRecent unaryParse 2 1 [{ title := "a", link := "b", pubDate := none, description := none }]
        = filterRecent unaryParse 2 1 [{ title := "a", link := "b", pubDate := none, description := none }] ∧
    ∀ e ∈ filterRecent unaryParse 2 1 [{ title := "a", link := "b", pubDate := none, description := none }],
      e ∈ [{ title := "a", link := "b", pubDate := none, description := none }] :=
  filterRecent_deterministic unaryParse 2 1 _ _ _ rfl rfl

/-- C8 counterexample: with `daysFilter = 0` and `now` the day rendered as
`unaryRender 3`, an entry dated day 5 — strictly after `lastUpdated`'s date,
hence not equal to it — still survives the filter, so it is false that only
entries dated exactly `lastUpdated`'s date (or undated) survive. -/
theorem filterRecent_zero_cex :
    filterRecent unaryParse 3 0
        [{ title := "t", link := "l", pubDate := some ("xxxxx"), description := none }]
      = [{ title := "t", link := "l", pubDate := some ("xxxxx"), description := none }] ∧
    unaryParse ("xxxxx") = some 5 ∧ unaryParse (unaryRender 3) = some 3 ∧ ¬ (5 = 3) := by
  decide

/-- C8 (amended): with `daysFilter = 0` the cutoff is `now` itself, and the
survivors are exactly the entries with absent (or unparseable) `pubDate`
together with those whose `pubDate` is on or after `now`; every entry dated
strictly before `now` is removed. -/
theorem filterRecent_zero_mem (dateOf : String → Option Nat) (now : Nat)
    (es : List FeedEntry) (e : FeedEntry) :
    e ∈ filterRecent dateOf now 0 es ↔
      e ∈ es ∧ (e.pubDate = none ∨ ∃ s, e.pubDate = some s ∧
        (dateOf s = none ∨ ∃ d, dateOf s = some d ∧ now ≤ d)) := by
  rw [filterRecent, List.mem_filter, Nat.sub_zero, keepEntry_eq_true]

theorem strStartsWith_expanded (rest : String) :
    strStartsWith (RSSHUB_BASE ++ "/" ++ rest) ALIAS_SCHEME = false := by
  have hdata : (RSSHUB_BASE ++ "/" ++ rest).data = (RSSHUB_BASE ++ "/").data ++ rest.data :=
    String.data_append _ _
  unfold strStartsWith
  rw [hdata, List.take_append_eq_append_take]
  have h9 : ALIAS_SCHEME.data.length = 9 := rfl
  have h19 : (RSSHUB_BASE ++ "/").data.length = 19 := rfl
  rw [h9, h19]
  have hz : (9 : Nat) - 19 = 0 := rfl
  rw [hz, List.take_zero, List.append_nil]
  decide

/-- C4: URL alias expansion is idempotent: a non-alias URL passes through
unchanged, and expanding any URL twice equals expanding it once (an expanded
alias starts with the gateway base address, so it is no longer an alias). -/
theorem expandUrl_idempotent (url : String) :
    (strStartsWith url ALIAS_SCHEME = false → expandUrl url = url) ∧
    expandUrl (expandUrl url) = expandUrl url := by
  constructor
  · intro h
    simp [expandUrl, h]
  · cases hb : strStartsWith url ALIAS_SCHEME
    · simp [expandUrl, hb]
    · have h1 : expandUrl url = RSSHUB_BASE ++ "/" ++ url.drop ALIAS_SCHEME.length := by
        simp [expandUrl, hb]
      rw [h1]
      simp [expandUrl, strStartsWith_expanded]

/-- C2: per-source failure isolation: the aggregator keeps every configured
group and source in registry position, the total source count in the output
equals the source count in the registry, and any source whose fetch or parse
fails appears with its name, its expanded URL, and an empty entries list. -/
theorem aggregate_failure_isolation (parseRaw : String → Option Nat) (render : Nat → String)
    (dateOf : String → Option Nat) (fetchParse : String → FetchResult)
    (registry : List GroupConfig) (now daysFilter : Nat) :
    (aggregate parseRaw render dateOf fetchParse registry now daysFilter).groups.length
        = registry.length ∧
    ((aggregate parseRaw render dateOf fetchParse registry now daysFilter).groups.map
        fun g => g.sources.length).sum
        = (registry.map fun gc => gc.feeds.length).sum ∧
    List.Forall₂ (fun gc g =>
        g.groupName = gc.groupName ∧ g.sources.length = gc.feeds.length ∧
        List.Forall₂ (fun cfg s =>
            s.name = cfg.name ∧ s.url = expandUrl cfg.url ∧
            ((fetchParse (expandUrl cfg.url)).isFailure = true → s.entries = []))
          gc.feeds g.sources)
      registry (aggregate parseRaw render dateOf fetchParse registry now daysFilter).groups := by
  refine ⟨?_, ?_, ?_⟩
  · simp [aggregate]
  · simp [aggregate, List.map_map, Function.comp_def]
  · simp only [aggregate]
    apply forall₂_map_of_forall
    intro gc _
    refine ⟨rfl, by simp, ?_⟩
    apply forall₂_map_of_forall
    intro cfg _
    rcases hf : fetchParse (expandUrl cfg.url) with c | c | raws <;>
      simp [processSource, hf, FetchResult.isFailure]

/-- C1: the recency invariant of the pipeline output: the output stamps the
run time as `lastUpdated`, and every entry of every source of every group
either has an absent `pubDate` or carries a date on or after `lastUpdated`
minus `daysFilter` days. -/
theorem aggregate_recency_invariant (parseRaw : String → Option Nat) (render : Nat → String)
    (dateOf : String → Option Nat) (fetchParse : String → FetchResult)
    (registry : List GroupConfig) (now daysFilter : Nat)
    (hrt : ∀ t, dateOf (render t) = some t) :
    dateOf (aggregate parseRaw render dateOf fetchParse registry now daysFilter).lastUpdated
        = some now ∧
    ∀ g ∈ (aggregate parseRaw render dateOf fetchParse registry now daysFilter).groups,
      ∀ s ∈ g.sources, ∀ e ∈ s.entries,
        e.pubDate = none ∨
        ∃ str d, e.pubDate = some str ∧ dateOf str = some d ∧ now - daysFilter ≤ d := by
  constructor
  · exact hrt now
  · intro g hg s hs e he
    simp only [aggregate, List.mem_map] at hg
    obtain ⟨gc, hgc, rfl⟩ := hg
    simp only [List.mem_map] at hs
    obtain ⟨cfg, hcfg, rfl⟩ := hs
    rcases hf : fetchParse (expandUrl cfg.url) with c | c | raws
    · simp [processSource, hf] at he
    · simp [processSource, hf] at he
    · simp only [processSource, hf] at he
      rw [filterRecent, List.mem_filter] at he
      obtain ⟨hmem, hkeep⟩ := he
      simp only [normalizeFeed, List.mem_map] at hmem
      obtain ⟨raw, _, rfl⟩ := hmem
      rcases hbp : raw.pubDate.bind parseRaw with _ | t
      · left
        simp [normalizeEntry, hbp]
      · right
        have hpd : (normalizeEntry parseRaw render raw).pubDate = some (render t) := by
          simp [normalizeEntry, hbp]
        refine ⟨render t, t, hpd, hrt t, ?_⟩
        rw [keepEntry_eq_true] at hkeep
        rcases hkeep with h0 | ⟨s', hs', hcase⟩
        · rw [hpd] at h0
          cases h0
        · rw [hpd] at hs'
          injection hs' with hss
          subst hss
          rcases hcase with hn | ⟨d, hd, hc⟩
          · rw [hrt t] at hn
            cases hn
          · rw [hrt t] at hd
            injection hd with hdd
            subst hdd
            exact hc

/-- C1 witness: the invariant evaluated at a concrete run: one group, one
aliased source, a fetch stub returning one entry dated day 2, run at day 3
with a 2-day window. -/
theorem aggregate_recency_invariant_witness :
    unaryParse (aggregate unaryParse unaryRender unaryParse wFetch wRegistry 3 2).lastUpdated
        = some 3 ∧
    ∀ g ∈ (aggregate unaryParse unaryRender unaryParse wFetch wRegistry 3 2).groups,
      ∀ s ∈ g.sources, ∀ e ∈ s.entries,
        e.pubDate = none ∨
        ∃ str d, e.pubDate = some str ∧ unaryParse str = some d ∧ 3 - 2 ≤ d :=
  aggregate_recency_invariant unaryParse unaryRender unaryParse wFetch wRegistry 3 2
    unaryParse_unaryRender

end RSSPage
